import Mathlib

/-!
Shallow embedding of the offer-publishing core of the `precios-riogrande`
repository: the image-promotion routine `validateS3image`, the `publish`
dedup-or-attach workflow, `deleteOwnPost`, the `getDailyBestOffers` ranking
query (all from `src/server/api/routers/post.ts`) and the product `update`
mutation (from `src/server/api/routers/product/index.ts`).

Modelling conventions:
- Prisma `Decimal` prices are modelled as exact rationals (`Rat`);
- timestamps are integers (`Int`); the start of the current UTC-3 day is the
  parameter `dayStart` and the current instant is `now`;
- the S3 bucket is a presence map `String → Bool` (which keys hold objects);
- network failures of the individual S3 calls are injected through an
  `S3Faults` record: each field says whether that call's promise rejects
  (or, for the copy, resolves without a `CopyObjectResult` confirmation);
- a thrown `TRPCError` (or a raw rethrown backend rejection) is an
  `Except.error`; resolving is `Except.ok`.
-/

/-- `IMAGE_PREFIX` from post.ts: temporary objects live under `"pre-" ++ key`. -/
def PRE : String := "pre-"

/-- An Offer record (the Prisma `post` model), as selected by the router. -/
structure Post where
  id : String
  productId : String
  commerceId : String
  price : Rat
  publishDate : Int
  image : String
  authorId : String
deriving DecidableEq

/-- A Collaboration record (the Prisma `colaboration` model): links a user to a post. -/
structure Colaboration where
  id : String
  postId : String
  userId : String
deriving DecidableEq

/-- A Product record (the Prisma `product` model), as far as `update` touches it. -/
structure Product where
  id : String
  name : String
  categoryId : String
deriving DecidableEq

/-- The relational store as seen by the post router. -/
structure DB where
  posts : List Post
  colaborations : List Colaboration
deriving DecidableEq

/-- The S3 bucket contents: which keys currently hold an object. -/
def S3State : Type := String → Bool

/-- Failure injection for the three S3 calls made by `validateS3image`:
whether the head call rejects for a non-absence reason, whether the copy
call rejects, whether the copy resolves without a `CopyObjectResult`
confirmation, and whether the delete call rejects. -/
structure S3Faults where
  headNetworkFail : Bool
  copyRejects : Bool
  copyNoConfirm : Bool
  deleteRejects : Bool
deriving DecidableEq

/-- No injected S3 failures: every call resolves normally. -/
def noFaults : S3Faults := ⟨false, false, false, false⟩

/-- Errors surfacing from a procedure: the thrown `TRPCError`s of the source
(with their codes and messages) plus `backendFailure` for a raw backend
rejection that propagates uncaught. -/
inductive TRPCErr where
  | badRequest (msg : String)
  | internalServerError (msg : String)
  | notFound
  | forbidden (msg : String)
  | conflict (msg : String)
  | backendFailure
deriving DecidableEq

/-- Embedding of `validateS3image` (post.ts:31-69). Heads the prefixed object
(any rejection, absence included, is caught and becomes
`BAD_REQUEST IMAGE_KEY_NOT_FOUND`); copies it to the unprefixed key (an
uncaught rejection propagates; a missing `CopyObjectResult` becomes
`INTERNAL_SERVER_ERROR IMAGE_VALIDATION_ERROR` and the source is kept);
awaits the delete of the prefixed object (an uncaught rejection propagates);
returns the public URL `S3_BUCKET_URL ++ "/" ++ key`. Returns the outcome
together with the bucket state afterwards. -/
def validateS3image (baseUrl : String) (f : S3Faults) (st : S3State)
    (imageKeyWithoutPrefix : String) : Except TRPCErr String × S3State :=
  let pKey := PRE ++ imageKeyWithoutPrefix
  if !(st pKey) || f.headNetworkFail then
    (Except.error (TRPCErr.badRequest "IMAGE_KEY_NOT_FOUND"), st)
  else if f.copyRejects then
    (Except.error TRPCErr.backendFailure, st)
  else if f.copyNoConfirm then
    (Except.error (TRPCErr.internalServerError "IMAGE_VALIDATION_ERROR"), st)
  else
    let st1 : S3State := fun k => if k = imageKeyWithoutPrefix then true else st k
    if f.deleteRejects then
      (Except.error TRPCErr.backendFailure, st1)
    else
      (Except.ok (baseUrl ++ "/" ++ imageKeyWithoutPrefix),
        fun k => if k = pKey then false else st1 k)

/-- The zod-validated input of `publish` (and `create`). -/
structure PublishInput where
  productId : String
  commerceId : String
  imageKey : String
  price : Rat
deriving DecidableEq

/-- Hex-digit test used by the UUID shape check. -/
def isHexDigit (c : Char) : Bool :=
  c.isDigit || (('a' ≤ c) && (c ≤ 'f')) || (('A' ≤ c) && (c ≤ 'F'))

/-- Split a character list on the hyphen separator. -/
def splitOnDash : List Char → List (List Char)
  | [] => [[]]
  | c :: rest =>
      if c = '-' then [] :: splitOnDash rest
      else
        match splitOnDash rest with
        | g :: gs => (c :: g) :: gs
        | [] => [[c]]

/-- The `z.string().uuid()` shape: five hyphen-separated hex groups 8-4-4-4-12. -/
def isUUID (s : String) : Bool :=
  match splitOnDash s.toList with
  | [a, b, c, d, e] =>
      a.length == 8 && b.length == 4 && c.length == 4 && d.length == 4 &&
      e.length == 12 && (a ++ b ++ c ++ d ++ e).all isHexDigit
  | _ => false

/-- The zod schema of `publish`/`create` (post.ts:107-122): nonempty UUID
product and commerce ids, nonempty image key, strictly positive price.
Requests failing this never reach the mutation body. -/
def validPublishInput (i : PublishInput) : Prop :=
  i.productId ≠ "" ∧ isUUID i.productId = true ∧
  i.commerceId ≠ "" ∧ isUUID i.commerceId = true ∧
  i.imageKey ≠ "" ∧ 0 < i.price

/-- The `findFirst` filter of `publish` (post.ts:129-138): same-day
(publishDate ≥ start of the current UTC-3 day), same product, same commerce,
exactly equal price. -/
def matchesPublish (dayStart : Int) (i : PublishInput) (p : Post) : Bool :=
  decide (dayStart ≤ p.publishDate) && p.productId == i.productId &&
  p.commerceId == i.commerceId && decide (p.price = i.price)

/-- What `publish` resolves with: nothing (the same-author no-op), the created
Collaboration, or the created Post. -/
inductive PublishResult where
  | unit
  | colab (c : Colaboration)
  | post (p : Post)
deriving DecidableEq

/-- Embedding of the `publish` mutation body (post.ts:123-183). `freshId` is
the id the store generates for whichever record gets created. Returns the
outcome, the store afterwards, and the bucket afterwards. -/
def publish (dayStart now : Int) (baseUrl : String) (f : S3Faults)
    (i : PublishInput) (authorId : String) (freshId : String)
    (db : DB) (st : S3State) :
    Except TRPCErr PublishResult × DB × S3State :=
  match db.posts.find? (matchesPublish dayStart i) with
  | some existentPost =>
      if existentPost.authorId = authorId then
        (Except.ok PublishResult.unit, db, st)
      else
        (Except.ok (PublishResult.colab ⟨freshId, existentPost.id, authorId⟩),
          { db with colaborations :=
              db.colaborations ++ [⟨freshId, existentPost.id, authorId⟩] }, st)
  | none =>
      match validateS3image baseUrl f st i.imageKey with
      | (Except.error e, st1) => (Except.error e, db, st1)
      | (Except.ok imageUrl, st1) =>
          (Except.ok (PublishResult.post
              ⟨freshId, i.productId, i.commerceId, i.price, now, imageUrl, authorId⟩),
            { db with posts := db.posts ++
                [⟨freshId, i.productId, i.commerceId, i.price, now, imageUrl, authorId⟩] },
            st1)

/-- Embedding of the `deleteOwnPost` mutation (post.ts:302-332): look the post
up by id (`NOT_FOUND` if absent), refuse with `FORBIDDEN` unless the requester
is its author, else delete it. Returns the outcome and the store afterwards. -/
def deleteOwnPost (db : DB) (userId : String) (id : String) :
    Except TRPCErr Post × DB :=
  match db.posts.find? (fun p => p.id == id) with
  | none => (Except.error TRPCErr.notFound, db)
  | some post =>
      if post.authorId ≠ userId then
        (Except.error (TRPCErr.forbidden "No eres el autor de la publicacion"), db)
      else
        (Except.ok post, { db with posts := db.posts.eraseP (fun p => p.id == id) })

/-- The `orderBy: [price asc, publishDate desc]` comparison of
`getDailyBestOffers`: `a` sorts at or before `b`. -/
def offerLE (a b : Post) : Bool :=
  decide (a.price < b.price) ||
  (decide (a.price = b.price) && decide (b.publishDate ≤ a.publishDate))

/-- Insertion into a list ordered by `offerLE`. -/
def insertOffer (a : Post) : List Post → List Post
  | [] => [a]
  | b :: l => if offerLE a b then a :: b :: l else b :: insertOffer a l

/-- Sorting by `offerLE` (the store's multi-key ordering). -/
def sortOffers : List Post → List Post
  | [] => []
  | a :: l => insertOffer a (sortOffers l)

/-- Prisma's `distinct: "productId"`: keep the first row of each productId in
the ordered result; `seen` holds the productIds already emitted. -/
def distinctByProduct (seen : List String) : List Post → List Post
  | [] => []
  | a :: l =>
      if seen.contains a.productId then distinctByProduct seen l
      else a :: distinctByProduct (a.productId :: seen) l

/-- The `_count.colaborations` annotation: collaborations pointing at a post. -/
def colabCount (db : DB) (postId : String) : Nat :=
  db.colaborations.countP (fun c => c.postId == postId)

/-- Embedding of the `getDailyBestOffers` query (post.ts:238-264): posts with
`publishDate ≥ dayStart`, ordered by price ascending then publish time
descending, one row per product, each with its collaboration count. -/
def getDailyBestOffers (db : DB) (dayStart : Int) : List (Post × Nat) :=
  (distinctByProduct []
      (sortOffers (db.posts.filter (fun p => decide (dayStart ≤ p.publishDate))))).map
    (fun p => (p, colabCount db p.id))

/-- Embedding of the product `update` mutation (product/index.ts:17-34).
`storageOutcome` is what the store's update promise does: resolve with the
updated product, or reject with a `PrismaClientKnownRequestError` carrying
`code`. The source's `.catch` rethrows code `"P2002"` as `CONFLICT` and —
having no other branch — swallows every other rejection, resolving the
mutation with `undefined` (modelled as `Except.ok none`). -/
def productUpdate (storageOutcome : Except String Product) :
    Except TRPCErr (Option Product) :=
  match storageOutcome with
  | Except.ok p => Except.ok (some p)
  | Except.error code =>
      if code == "P2002" then
        Except.error (TRPCErr.conflict "Ya existe un producto con ese nombre")
      else
        Except.ok none

/-! ### Helper lemmas about `validateS3image` -/

/-- `"pre-" ++ k` is never `k` itself (the prefix is nonempty). -/
theorem ne_pre_append (k : String) : k ≠ PRE ++ k := by
  intro h
  have hl := congrArg String.length h
  rw [String.length_append] at hl
  have : PRE.length = 4 := rfl
  omega

/-- Success path of `validateS3image`: when the prefixed object exists and no
S3 call misbehaves, it returns the public URL and the bucket now holds the
unprefixed key and no longer the prefixed one. -/
theorem validateS3image_ok_spec (baseUrl : String) (f : S3Faults) (st : S3State)
    (k : String) (hst : st (PRE ++ k) = true) (h1 : f.headNetworkFail = false)
    (h2 : f.copyRejects = false) (h3 : f.copyNoConfirm = false)
    (h4 : f.deleteRejects = false) :
    validateS3image baseUrl f st k =
      (Except.ok (baseUrl ++ "/" ++ k),
        fun x => if x = PRE ++ k then false else if x = k then true else st x) := by
  unfold validateS3image
  simp [hst, h1, h2, h3, h4]

/-- Whenever `validateS3image` succeeds, the returned URL is the base URL
joined with the unprefixed key. -/
theorem validateS3image_ok_url (baseUrl : String) (f : S3Faults) (st : S3State)
    (k url : String) (st1 : S3State)
    (h : validateS3image baseUrl f st k = (Except.ok url, st1)) :
    url = baseUrl ++ "/" ++ k := by
  simp only [validateS3image] at h
  split_ifs at h <;> simp_all

/-! ### Shared concrete inputs for witnesses -/

def uuidA : String := "123e4567-e89b-12d3-a456-426614174000"

def uuidB : String := "00000000-0000-0000-0000-000000000000"

/-- A valid publish input: both ids UUID-shaped, image key `"abc"`, price 10.01. -/
def iW : PublishInput := ⟨uuidA, uuidB, "abc", mkRat 1001 100⟩

/-- A bucket holding exactly the temporary object `"pre-abc"`. -/
def stW : S3State := fun k => k == "pre-abc"

/-- A same-day post for `iW`'s product/commerce/price, authored by `"a0"`. -/
def pW : Post := ⟨"p1", uuidA, uuidB, mkRat 1001 100, 7, "img", "a0"⟩

/-! ### C1 -/

/-- C1: for a valid publish input with no matching same-day offer, `publish`
promotes the image and creates exactly one new Offer carrying the promoted
URL, the given product, commerce, author and exact price; if promotion fails,
`publish` fails with the promotion's error and the store is unchanged. -/
theorem publish_no_match_creates_offer
    (dayStart now : Int) (baseUrl : String) (f : S3Faults)
    (i : PublishInput) (authorId freshId : String) (db : DB) (st : S3State)
    (hv : validPublishInput i)
    (hnm : ∀ p ∈ db.posts, ¬(dayStart ≤ p.publishDate ∧
      p.productId = i.productId ∧ p.commerceId = i.commerceId ∧ p.price = i.price)) :
    (∀ url st1, validateS3image baseUrl f st i.imageKey = (Except.ok url, st1) →
      url = baseUrl ++ "/" ++ i.imageKey ∧
      publish dayStart now baseUrl f i authorId freshId db st =
        (Except.ok (PublishResult.post
            ⟨freshId, i.productId, i.commerceId, i.price, now, url, authorId⟩),
          ⟨db.posts ++ [⟨freshId, i.productId, i.commerceId, i.price, now, url, authorId⟩],
            db.colaborations⟩, st1)) ∧
    (∀ e st1, validateS3image baseUrl f st i.imageKey = (Except.error e, st1) →
      publish dayStart now baseUrl f i authorId freshId db st = (Except.error e, db, st1)) := by
  have hb : ∀ p ∈ db.posts, matchesPublish dayStart i p = false := by
    intro p hp
    have h := hnm p hp
    simp only [matchesPublish, Bool.and_eq_false_iff, beq_eq_false_iff_ne, ne_eq,
      decide_eq_false_iff_not]
    tauto
  have hfind : db.posts.find? (matchesPublish dayStart i) = none :=
    List.find?_eq_none.mpr fun p hp => by simp [hb p hp]
  refine ⟨fun url st1 hval => ⟨validateS3image_ok_url _ _ _ _ _ _ hval, ?_⟩,
    fun e st1 hval => ?_⟩
  · simp only [publish, hfind, hval]
  · simp only [publish, hfind, hval]

/-- C1 witness: publishing `iW` by `"a0"` into an empty store with a healthy
bucket holding `"pre-abc"` creates the expected Offer. -/
theorem publish_no_match_creates_offer_witness :
    validPublishInput iW ∧
    publish 0 5 "base" noFaults iW "a0" "f0" ⟨[], []⟩ stW =
      (Except.ok (PublishResult.post
          ⟨"f0", uuidA, uuidB, mkRat 1001 100, 5, "base/abc", "a0"⟩),
        ⟨[⟨"f0", uuidA, uuidB, mkRat 1001 100, 5, "base/abc", "a0"⟩], []⟩,
        fun x => if x = "pre-abc" then false else if x = "abc" then true else stW x) := by
  have hv : validPublishInput iW := by
    constructor
    · decide
    · exact ⟨by decide, by decide, by decide, by decide, by decide⟩
  have h := publish_no_match_creates_offer 0 5 "base" noFaults iW "a0" "f0" ⟨[], []⟩ stW hv
    (by intro p hp; simp at hp)
  have hval : validateS3image "base" noFaults stW "abc" =
      (Except.ok "base/abc",
        fun x => if x = "pre-abc" then false else if x = "abc" then true else stW x) := by
    have := validateS3image_ok_spec "base" noFaults stW "abc" (by decide) rfl rfl rfl rfl
    exact this
  exact ⟨hv, ((h.1 "base/abc" _ hval).2 : _)⟩

/-! ### C2 and C3 -/

/-- C2: when the same-day duplicate lookup finds an Offer by a different
author, `publish` creates and returns exactly one Collaboration linking the
requesting user to that Offer's id, creates no Offer and touches no storage
(the store's posts and the bucket are returned unchanged). -/
theorem publish_match_other_author_collab
    (dayStart now : Int) (baseUrl : String) (f : S3Faults)
    (i : PublishInput) (authorId freshId : String) (db : DB) (st : S3State)
    (p : Post)
    (hfind : db.posts.find? (matchesPublish dayStart i) = some p)
    (hne : p.authorId ≠ authorId) :
    publish dayStart now baseUrl f i authorId freshId db st =
      (Except.ok (PublishResult.colab ⟨freshId, p.id, authorId⟩),
        ⟨db.posts, db.colaborations ++ [⟨freshId, p.id, authorId⟩]⟩, st) := by
  simp only [publish, hfind, if_neg hne]

/-- C2 witness: `"a1"` republishing `pW`'s offer (authored by `"a0"`) yields a
Collaboration to `pW.id` and leaves posts and bucket alone. -/
theorem publish_match_other_author_collab_witness :
    pW.authorId ≠ "a1" ∧
    publish 0 5 "base" noFaults iW "a1" "f0" ⟨[pW], []⟩ stW =
      (Except.ok (PublishResult.colab ⟨"f0", "p1", "a1"⟩),
        ⟨[pW], [⟨"f0", "p1", "a1"⟩]⟩, stW) :=
  ⟨by decide,
    publish_match_other_author_collab 0 5 "base" noFaults iW "a1" "f0" ⟨[pW], []⟩ stW pW
      (by decide) (by decide)⟩

/-- C3: when the same-day duplicate lookup finds an Offer by the requesting
user, `publish` is a no-op: it resolves with nothing and leaves the store and
the bucket exactly as they were. -/
theorem publish_match_same_author_noop
    (dayStart now : Int) (baseUrl : String) (f : S3Faults)
    (i : PublishInput) (authorId freshId : String) (db : DB) (st : S3State)
    (p : Post)
    (hfind : db.posts.find? (matchesPublish dayStart i) = some p)
    (heq : p.authorId = authorId) :
    publish dayStart now baseUrl f i authorId freshId db st =
      (Except.ok PublishResult.unit, db, st) := by
  simp only [publish, hfind, if_pos heq]

/-- C3 witness: `"a0"` republishing its own offer `pW` is a no-op. -/
theorem publish_match_same_author_noop_witness :
    publish 0 5 "base" noFaults iW "a0" "f0" ⟨[pW], []⟩ stW =
      (Except.ok PublishResult.unit, ⟨[pW], []⟩, stW) :=
  publish_match_same_author_noop 0 5 "base" noFaults iW "a0" "f0" ⟨[pW], []⟩ stW pW
    (by decide) (by decide)

/-! ### C5, C6, C7 -/

/-- C5: if the existence check on the prefixed object reports absence or fails
for any reason, promotion fails with the `BAD_REQUEST IMAGE_KEY_NOT_FOUND`
error, the bucket is untouched (no copy, no delete), and a `publish` that
reaches promotion with this bucket creates no Offer and leaves the store
unchanged. -/
theorem validateS3image_head_fail
    (baseUrl : String) (f : S3Faults) (st : S3State) (k : String)
    (h : st (PRE ++ k) = false ∨ f.headNetworkFail = true) :
    validateS3image baseUrl f st k =
      (Except.error (TRPCErr.badRequest "IMAGE_KEY_NOT_FOUND"), st) ∧
    (∀ dayStart now i authorId freshId db, i.imageKey = k →
      db.posts.find? (matchesPublish dayStart i) = none →
      publish dayStart now baseUrl f i authorId freshId db st =
        (Except.error (TRPCErr.badRequest "IMAGE_KEY_NOT_FOUND"), db, st)) := by
  have hval : validateS3image baseUrl f st k =
      (Except.error (TRPCErr.badRequest "IMAGE_KEY_NOT_FOUND"), st) := by
    simp only [validateS3image]
    rcases h with h | h <;> simp [h]
  refine ⟨hval, fun dayStart now i authorId freshId db hik hfind => ?_⟩
  simp only [publish, hfind, hik, hval]

/-- C5 witness: with an empty bucket, promoting `"abc"` fails with
`IMAGE_KEY_NOT_FOUND` and publishing `iW` into an empty store changes nothing. -/
theorem validateS3image_head_fail_witness :
    validateS3image "base" noFaults (fun _ => false) "abc" =
      (Except.error (TRPCErr.badRequest "IMAGE_KEY_NOT_FOUND"), fun _ => false) ∧
    publish 0 5 "base" noFaults iW "a0" "f0" ⟨[], []⟩ (fun _ => false) =
      (Except.error (TRPCErr.badRequest "IMAGE_KEY_NOT_FOUND"), ⟨[], []⟩, fun _ => false) := by
  have h := validateS3image_head_fail "base" noFaults (fun _ => false) "abc" (Or.inl rfl)
  exact ⟨h.1, h.2 0 5 iW "a0" "f0" ⟨[], []⟩ rfl rfl⟩

/-- C6: if the prefixed object exists and the head call succeeds but the copy
resolves without a `CopyObjectResult` confirmation, promotion fails with the
`INTERNAL_SERVER_ERROR IMAGE_VALIDATION_ERROR` error and the bucket is
returned unchanged — in particular the temporary prefixed object is still
there. -/
theorem validateS3image_copy_no_confirm
    (baseUrl : String) (f : S3Faults) (st : S3State) (k : String)
    (hst : st (PRE ++ k) = true) (h1 : f.headNetworkFail = false)
    (h2 : f.copyRejects = false) (h3 : f.copyNoConfirm = true) :
    validateS3image baseUrl f st k =
      (Except.error (TRPCErr.internalServerError "IMAGE_VALIDATION_ERROR"), st) ∧
    (validateS3image baseUrl f st k).2 (PRE ++ k) = true := by
  have hval : validateS3image baseUrl f st k =
      (Except.error (TRPCErr.internalServerError "IMAGE_VALIDATION_ERROR"), st) := by
    simp only [validateS3image]
    simp [hst, h1, h2, h3]
  exact ⟨hval, by rw [hval]; exact hst⟩

/-- C6 witness: an unconfirmed copy of `"abc"` fails with
`IMAGE_VALIDATION_ERROR` and keeps `"pre-abc"` in the bucket. -/
theorem validateS3image_copy_no_confirm_witness :
    validateS3image "base" ⟨false, false, true, false⟩ stW "abc" =
      (Except.error (TRPCErr.internalServerError "IMAGE_VALIDATION_ERROR"), stW) ∧
    (validateS3image "base" ⟨false, false, true, false⟩ stW "abc").2 "pre-abc" = true := by
  have h := validateS3image_copy_no_confirm "base" ⟨false, false, true, false⟩ stW "abc"
    (by decide) rfl rfl rfl
  exact ⟨h.1, h.2⟩

/-- C7 counterexample: the claim says the caller gets success once the copy is
confirmed even if the deletion step fails, but the source awaits the delete
with no handler, so a rejecting delete makes `validateS3image` fail: with
`"pre-abc"` present and only the delete call rejecting, the outcome is an
error, not the promised URL. -/
theorem validateS3image_delete_fail_cex :
    (validateS3image "base" ⟨false, false, false, true⟩ stW "abc").1 =
      Except.error TRPCErr.backendFailure := rfl

/-- C7 (amended): with the prefixed object present and head/copy healthy and
the copy confirmed, if the delete call succeeds then promotion returns the
public URL `baseUrl ++ "/" ++ k` and afterwards the bucket holds `k` and no
longer holds `"pre-" ++ k`; but if the delete call rejects, the rejection
propagates to the caller as an error instead of success. -/
theorem validateS3image_promote_spec
    (baseUrl : String) (f : S3Faults) (st : S3State) (k : String)
    (hst : st (PRE ++ k) = true) (h1 : f.headNetworkFail = false)
    (h2 : f.copyRejects = false) (h3 : f.copyNoConfirm = false) :
    (f.deleteRejects = false →
      (validateS3image baseUrl f st k).1 = Except.ok (baseUrl ++ "/" ++ k) ∧
      (validateS3image baseUrl f st k).2 k = true ∧
      (validateS3image baseUrl f st k).2 (PRE ++ k) = false) ∧
    (f.deleteRejects = true →
      (validateS3image baseUrl f st k).1 = Except.error TRPCErr.backendFailure) := by
  constructor
  · intro h4
    rw [validateS3image_ok_spec baseUrl f st k hst h1 h2 h3 h4]
    refine ⟨rfl, ?_, ?_⟩
    · simp [if_neg (ne_pre_append k)]
    · simp
  · intro h4
    simp only [validateS3image]
    simp [hst, h1, h2, h3, h4]

/-- C7 witness: promoting `"abc"` from a bucket holding exactly `"pre-abc"`
with healthy calls returns `"base/abc"`, leaves an object at `"abc"` and none
at `"pre-abc"`. -/
theorem validateS3image_promote_spec_witness :
    (validateS3image "base" noFaults stW "abc").1 = Except.ok "base/abc" ∧
    (validateS3image "base" noFaults stW "abc").2 "abc" = true ∧
    (validateS3image "base" noFaults stW "abc").2 "pre-abc" = false :=
  (validateS3image_promote_spec "base" noFaults stW "abc" (by decide) rfl rfl rfl).1 rfl

/-! ### C8 -/

/-- C8: `deleteOwnPost` fails with `NOT_FOUND` when no post carries the
requested id; fails with `FORBIDDEN` and deletes nothing when the post found
by id is not authored by the requester; and otherwise returns the post and
removes exactly that one record from the store. -/
theorem deleteOwnPost_spec (db : DB) (u i : String) :
    ((∀ p ∈ db.posts, p.id ≠ i) →
      deleteOwnPost db u i = (Except.error TRPCErr.notFound, db)) ∧
    (∀ p, db.posts.find? (fun q => q.id == i) = some p → p.authorId ≠ u →
      deleteOwnPost db u i =
        (Except.error (TRPCErr.forbidden "No eres el autor de la publicacion"), db)) ∧
    (∀ p, db.posts.find? (fun q => q.id == i) = some p → p.authorId = u →
      deleteOwnPost db u i =
        (Except.ok p, ⟨db.posts.eraseP (fun q => q.id == i), db.colaborations⟩) ∧
      (db.posts.eraseP (fun q => q.id == i)).length + 1 = db.posts.length) := by
  refine ⟨fun hnone => ?_, fun p hfind hne => ?_, fun p hfind heq => ?_⟩
  · have hfind : db.posts.find? (fun q => q.id == i) = none :=
      List.find?_eq_none.mpr fun q hq => by simp [hnone q hq]
    simp only [deleteOwnPost, hfind]
  · simp only [deleteOwnPost, hfind, if_pos hne]
  · have hmem : p ∈ db.posts := List.mem_of_find?_eq_some hfind
    have hpred := List.find?_some hfind
    refine ⟨by simp only [deleteOwnPost, hfind, heq]; simp, ?_⟩
    have hlen := List.length_eraseP_of_mem (p := fun q => q.id == i) hmem hpred
    have hpos : 0 < db.posts.length := List.length_pos.mpr (by
      intro hcon; rw [hcon] at hmem; exact (List.not_mem_nil p) hmem)
    omega

/-- C8 witness: deleting `pW` by its author removes it; a stranger gets
`FORBIDDEN`; an unknown id gets `NOT_FOUND`. -/
theorem deleteOwnPost_spec_witness :
    deleteOwnPost ⟨[pW], []⟩ "a0" "p1" = (Except.ok pW, ⟨[], []⟩) ∧
    deleteOwnPost ⟨[pW], []⟩ "a9" "p1" =
      (Except.error (TRPCErr.forbidden "No eres el autor de la publicacion"), ⟨[pW], []⟩) ∧
    deleteOwnPost ⟨[pW], []⟩ "a0" "nope" = (Except.error TRPCErr.notFound, ⟨[pW], []⟩) := by
  refine ⟨((deleteOwnPost_spec ⟨[pW], []⟩ "a0" "p1").2.2 pW (by decide) (by decide)).1,
    (deleteOwnPost_spec ⟨[pW], []⟩ "a9" "p1").2.1 pW (by decide) (by decide),
    (deleteOwnPost_spec ⟨[pW], []⟩ "a0" "nope").1 ?_⟩
  intro p hp
  simp only [List.mem_singleton] at hp
  subst hp
  decide

/-! ### C10 -/

/-- C10: in the product `update` mutation, a duplicate-unique-field rejection
(Prisma code `"P2002"`) is translated to a `CONFLICT` error — but any other
storage-layer rejection (here `"P2025"`) is swallowed by the one-branch
`.catch` and the mutation resolves with `undefined` instead of failing, so
the spec's propagation policy does not hold of the code. -/
theorem productUpdate_swallows_other_errors :
    productUpdate (Except.error "P2002") =
      Except.error (TRPCErr.conflict "Ya existe un producto con ese nombre") ∧
    productUpdate (Except.error "P2025") = Except.ok none ∧
    ∀ code, code ≠ "P2002" →
      productUpdate (Except.error code) = Except.ok none := by
  refine ⟨rfl, rfl, fun code hne => ?_⟩
  simp [productUpdate, hne]

/-- C10 witness: the non-`P2002` rejection `"P2025"` is swallowed. -/
theorem productUpdate_swallows_other_errors_witness :
    productUpdate (Except.error "P2025") = Except.ok none :=
  (productUpdate_swallows_other_errors.2.2 "P2025" (by decide))

/-! ### C4 -/

/-- C4: the duplicate test compares prices exactly: against a store holding a
single same-day offer for the same product and commerce at a different price
(10.01 vs 10.00 in the witness), `publish` does not treat it as a duplicate —
with a healthy bucket it creates a second Offer, not a Collaboration or a
no-op. -/
theorem publish_price_exact
    (dayStart now : Int) (baseUrl : String) (i : PublishInput)
    (authorId freshId : String) (cs : List Colaboration) (o : Post) (st : S3State)
    (hday : dayStart ≤ o.publishDate)
    (hprod : o.productId = i.productId) (hcom : o.commerceId = i.commerceId)
    (hprice : o.price ≠ i.price)
    (hst : st (PRE ++ i.imageKey) = true) :
    (publish dayStart now baseUrl noFaults i authorId freshId ⟨[o], cs⟩ st).1 =
      Except.ok (PublishResult.post
        ⟨freshId, i.productId, i.commerceId, i.price, now,
          baseUrl ++ "/" ++ i.imageKey, authorId⟩) ∧
    (publish dayStart now baseUrl noFaults i authorId freshId ⟨[o], cs⟩ st).2.1 =
      ⟨[o, ⟨freshId, i.productId, i.commerceId, i.price, now,
          baseUrl ++ "/" ++ i.imageKey, authorId⟩], cs⟩ := by
  have hm : matchesPublish dayStart i o = false := by
    simp only [matchesPublish, Bool.and_eq_false_iff, decide_eq_false_iff_not]
    tauto
  have hfind : (DB.posts ⟨[o], cs⟩).find? (matchesPublish dayStart i) = none := by
    simp [List.find?, hm]
  have hval := validateS3image_ok_spec baseUrl noFaults st i.imageKey hst rfl rfl rfl rfl
  constructor <;> simp only [publish, hfind, hval] <;> rfl

/-- C4 witness: an offer stored at 10.01 does not block publishing the same
product/commerce at 10.00 the same day: a second Offer is created. -/
theorem publish_price_exact_witness :
    (publish 0 5 "base" noFaults ⟨uuidA, uuidB, "abc", 10⟩ "a1" "f0" ⟨[pW], []⟩ stW).1 =
      Except.ok (PublishResult.post ⟨"f0", uuidA, uuidB, 10, 5, "base/abc", "a1"⟩) ∧
    (publish 0 5 "base" noFaults ⟨uuidA, uuidB, "abc", 10⟩ "a1" "f0" ⟨[pW], []⟩ stW).2.1 =
      ⟨[pW, ⟨"f0", uuidA, uuidB, 10, 5, "base/abc", "a1"⟩], []⟩ :=
  publish_price_exact 0 5 "base" ⟨uuidA, uuidB, "abc", 10⟩ "a1" "f0" [] pW stW
    (by decide) rfl rfl (by decide) (by decide)

/-! ### Ordering lemmas for the ranking query -/

/-- A list ordered the way the ranking query orders: price ascending, then
publish time descending. -/
def SortedLE (l : List Post) : Prop := l.Pairwise (fun a b => offerLE a b = true)

theorem offerLE_refl (a : Post) : offerLE a a = true := by
  simp [offerLE]

theorem offerLE_total (a b : Post) : offerLE a b = true ∨ offerLE b a = true := by
  simp only [offerLE, Bool.or_eq_true, Bool.and_eq_true, decide_eq_true_eq]
  rcases lt_trichotomy a.price b.price with h | h | h
  · exact Or.inl (Or.inl h)
  · rcases le_total b.publishDate a.publishDate with hd | hd
    · exact Or.inl (Or.inr ⟨h, hd⟩)
    · exact Or.inr (Or.inr ⟨h.symm, hd⟩)
  · exact Or.inr (Or.inl h)

theorem offerLE_trans (a b c : Post) (hab : offerLE a b = true)
    (hbc : offerLE b c = true) : offerLE a c = true := by
  simp only [offerLE, Bool.or_eq_true, Bool.and_eq_true, decide_eq_true_eq] at *
  rcases hab with h1 | ⟨h1, h1d⟩ <;> rcases hbc with h2 | ⟨h2, h2d⟩
  · exact Or.inl (h1.trans h2)
  · exact Or.inl (lt_of_lt_of_le h1 (le_of_eq h2))
  · exact Or.inl (lt_of_le_of_lt (le_of_eq h1) h2)
  · exact Or.inr ⟨h1.trans h2, le_trans h2d h1d⟩

theorem mem_insertOffer {x a : Post} {l : List Post} :
    x ∈ insertOffer a l ↔ x = a ∨ x ∈ l := by
  induction l with
  | nil => simp [insertOffer]
  | cons b t ih =>
    simp only [insertOffer]
    split
    · simp [List.mem_cons]
    · simp only [List.mem_cons, ih]
      tauto

theorem mem_sortOffers {x : Post} {l : List Post} : x ∈ sortOffers l ↔ x ∈ l := by
  induction l with
  | nil => simp [sortOffers]
  | cons a t ih => simp [sortOffers, mem_insertOffer, ih]

theorem sorted_insertOffer {a : Post} {l : List Post} (h : SortedLE l) :
    SortedLE (insertOffer a l) := by
  induction l with
  | nil => simp [insertOffer, SortedLE]
  | cons b t ih =>
    rcases List.pairwise_cons.mp h with ⟨hb, ht⟩
    simp only [insertOffer]
    split
    · next hab =>
      refine List.pairwise_cons.mpr ⟨?_, h⟩
      intro x hx
      rcases List.mem_cons.mp hx with rfl | hx
      · exact hab
      · exact offerLE_trans a b x hab (hb x hx)
    · next hab =>
      have hba : offerLE b a = true :=
        (offerLE_total a b).resolve_left (by simpa using hab)
      refine List.pairwise_cons.mpr ⟨?_, ih ht⟩
      intro x hx
      rcases mem_insertOffer.mp hx with rfl | hx
      · exact hba
      · exact hb x hx

theorem sorted_sortOffers (l : List Post) : SortedLE (sortOffers l) := by
  induction l with
  | nil => simp [sortOffers, SortedLE]
  | cons a t ih => exact sorted_insertOffer ih

/-! ### Deduplication lemmas for the ranking query -/

theorem distinctByProduct_sublist (seen : List String) (l : List Post) :
    List.Sublist (distinctByProduct seen l) l := by
  induction l generalizing seen with
  | nil => simp [distinctByProduct]
  | cons a t ih =>
    simp only [distinctByProduct]
    split
    · exact (ih seen).cons a
    · exact (ih (a.productId :: seen)).cons₂ a

theorem distinctByProduct_not_seen {x : Post} {seen : List String} {l : List Post}
    (h : x ∈ distinctByProduct seen l) : seen.contains x.productId = false := by
  induction l generalizing seen with
  | nil => simp [distinctByProduct] at h
  | cons a t ih =>
    simp only [distinctByProduct] at h
    split at h
    · exact ih h
    · next hc =>
      rcases List.mem_cons.mp h with rfl | h
      · simpa using hc
      · have h2 := ih h
        simp only [List.contains_cons, Bool.or_eq_false_iff] at h2
        exact h2.2

theorem distinctByProduct_pairwise (seen : List String) (l : List Post) :
    (distinctByProduct seen l).Pairwise (fun a b => a.productId ≠ b.productId) := by
  induction l generalizing seen with
  | nil => simp [distinctByProduct]
  | cons a t ih =>
    simp only [distinctByProduct]
    split
    · exact ih seen
    · refine List.pairwise_cons.mpr ⟨?_, ih (a.productId :: seen)⟩
      intro x hx heq
      have h2 := distinctByProduct_not_seen hx
      simp [List.contains_cons, heq] at h2

theorem distinctByProduct_cover (q : Post) (seen : List String) {l : List Post}
    (hq : q ∈ l) (hns : seen.contains q.productId = false) :
    ∃ x ∈ distinctByProduct seen l, x.productId = q.productId := by
  induction l generalizing seen with
  | nil => simp at hq
  | cons a t ih =>
    simp only [distinctByProduct]
    rcases List.mem_cons.mp hq with rfl | hq
    · split
      · next hc => rw [hns] at hc; exact absurd hc (by simp)
      · exact ⟨q, List.mem_cons_self _ _, rfl⟩
    · split
      · exact ih seen hq hns
      · by_cases hpq : a.productId = q.productId
        · exact ⟨a, List.mem_cons_self _ _, hpq⟩
        · have hns2 : (a.productId :: seen).contains q.productId = false := by
            simp only [List.contains_cons, Bool.or_eq_false_iff]
            exact ⟨by simpa using fun h => hpq h.symm, hns⟩
          obtain ⟨x, hx, hxp⟩ := ih (a.productId :: seen) hq hns2
          exact ⟨x, List.mem_cons_of_mem a hx, hxp⟩

theorem distinctByProduct_min {seen : List String} {l : List Post}
    (hs : SortedLE l) :
    ∀ x ∈ distinctByProduct seen l, ∀ q ∈ l,
      q.productId = x.productId → offerLE x q = true := by
  induction l generalizing seen with
  | nil => intro x hx; simp [distinctByProduct] at hx
  | cons a t ih =>
    intro x hx q hq hpq
    rcases List.pairwise_cons.mp hs with ⟨ha, ht⟩
    simp only [distinctByProduct] at hx
    split at hx
    · next hc =>
      rcases List.mem_cons.mp hq with rfl | hq
      · have hxs := distinctByProduct_not_seen hx
        rw [hpq] at hc
        rw [hxs] at hc
        exact absurd hc (by simp)
      · exact ih ht x hx q hq hpq
    · rcases List.mem_cons.mp hx with rfl | hx
      · rcases List.mem_cons.mp hq with rfl | hq
        · exact offerLE_refl _
        · exact ha q hq
      · rcases List.mem_cons.mp hq with rfl | hq
        · have hxs := distinctByProduct_not_seen hx
          simp [List.contains_cons, hpq] at hxs
        · exact ih ht x hx q hq hpq

/-! ### C9 -/

/-- The §8 example: one product with same-day prices 50, 30, 30, the two 30s
at different times (`ex30b` the most recent). -/
def ex50 : Post := ⟨"e1", "prodX", "comX", 50, 10, "u", "a1"⟩

def ex30a : Post := ⟨"e2", "prodX", "comX", 30, 20, "u", "a2"⟩

def ex30b : Post := ⟨"e3", "prodX", "comX", 30, 30, "u", "a3"⟩

def dbEx : DB := ⟨[ex50, ex30a, ex30b], []⟩

/-- C9: `getDailyBestOffers` returns only same-day stored Offers annotated
with their collaboration counts, at most one per product, listed in
price-ascending / time-descending order; each returned Offer is best for its
product (lowest price, ties broken by most recent) and every product with a
same-day Offer is represented; in particular, for one product with same-day
prices 50, 30, 30 it returns exactly the most recent 30-priced offer. -/
theorem getDailyBestOffers_spec (db : DB) (dayStart : Int) :
    (∀ x ∈ getDailyBestOffers db dayStart,
      x.1 ∈ db.posts ∧ dayStart ≤ x.1.publishDate ∧ x.2 = colabCount db x.1.id) ∧
    (getDailyBestOffers db dayStart).Pairwise
      (fun x y => x.1.productId ≠ y.1.productId) ∧
    SortedLE ((getDailyBestOffers db dayStart).map Prod.fst) ∧
    (∀ x ∈ getDailyBestOffers db dayStart, ∀ q ∈ db.posts,
      dayStart ≤ q.publishDate → q.productId = x.1.productId →
      offerLE x.1 q = true) ∧
    (∀ q ∈ db.posts, dayStart ≤ q.publishDate →
      ∃ x ∈ getDailyBestOffers db dayStart, x.1.productId = q.productId) ∧
    getDailyBestOffers dbEx 0 = [(ex30b, 0)] := by
  have hfst : ∀ x ∈ getDailyBestOffers db dayStart,
      x.1 ∈ distinctByProduct []
        (sortOffers (db.posts.filter (fun p => decide (dayStart ≤ p.publishDate)))) ∧
      x.2 = colabCount db x.1.id := by
    intro x hx
    simp only [getDailyBestOffers, List.mem_map] at hx
    obtain ⟨p, hp, rfl⟩ := hx
    exact ⟨hp, rfl⟩
  have hback : ∀ p, p ∈ distinctByProduct []
      (sortOffers (db.posts.filter (fun q => decide (dayStart ≤ q.publishDate)))) →
      p ∈ db.posts ∧ dayStart ≤ p.publishDate := by
    intro p hp
    have h1 : p ∈ sortOffers (db.posts.filter
        (fun q => decide (dayStart ≤ q.publishDate))) :=
      (distinctByProduct_sublist _ _).mem hp
    have h2 := mem_sortOffers.mp h1
    have h3 := List.mem_filter.mp h2
    exact ⟨h3.1, by simpa using h3.2⟩
  refine ⟨?_, ?_, ?_, ?_, ?_, ?_⟩
  · intro x hx
    obtain ⟨hp, hc⟩ := hfst x hx
    obtain ⟨hmem, hday⟩ := hback x.1 hp
    exact ⟨hmem, hday, hc⟩
  · have := distinctByProduct_pairwise ([] : List String)
      (sortOffers (db.posts.filter (fun p => decide (dayStart ≤ p.publishDate))))
    unfold getDailyBestOffers
    exact List.pairwise_map.mpr this
  · have hsub := distinctByProduct_sublist ([] : List String)
      (sortOffers (db.posts.filter (fun p => decide (dayStart ≤ p.publishDate))))
    have hsorted := sorted_sortOffers
      (db.posts.filter (fun p => decide (dayStart ≤ p.publishDate)))
    have hmapfst : ∀ (l : List Post),
        (l.map (fun p => (p, colabCount db p.id))).map Prod.fst = l := by
      intro l
      induction l with
      | nil => rfl
      | cons a t ih => simp only [List.map_cons]; rw [ih]
    have heq : ((getDailyBestOffers db dayStart).map Prod.fst) = distinctByProduct []
        (sortOffers (db.posts.filter (fun p => decide (dayStart ≤ p.publishDate)))) := by
      unfold getDailyBestOffers
      exact hmapfst _
    rw [heq]
    exact hsorted.sublist hsub
  · intro x hx q hq hday hpid
    obtain ⟨hp, _⟩ := hfst x hx
    have hqf : q ∈ db.posts.filter (fun p => decide (dayStart ≤ p.publishDate)) :=
      List.mem_filter.mpr ⟨hq, by simpa using hday⟩
    exact distinctByProduct_min (sorted_sortOffers _) x.1 hp q
      (mem_sortOffers.mpr hqf) hpid
  · intro q hq hday
    have hqf : q ∈ db.posts.filter (fun p => decide (dayStart ≤ p.publishDate)) :=
      List.mem_filter.mpr ⟨hq, by simpa using hday⟩
    obtain ⟨p, hp, hpid⟩ := distinctByProduct_cover q []
      (mem_sortOffers.mpr hqf) rfl
    refine ⟨(p, colabCount db p.id), ?_, hpid⟩
    simp only [getDailyBestOffers, List.mem_map]
    exact ⟨p, hp, rfl⟩
  · rfl

/-- C9 witness: in the 50/30/30 example the product is represented in the
feed (and, by the closed conjunct, by exactly the most recent 30-priced
offer). -/
theorem getDailyBestOffers_spec_witness :
    ∃ x ∈ getDailyBestOffers dbEx 0, x.1.productId = ex50.productId :=
  (getDailyBestOffers_spec dbEx 0).2.2.2.2.1 ex50 (List.mem_cons_self _ _) (by decide)
